import Mathlib

/-!
Verification of the booking-state core of the ISK room-booking calendar
(src/src/App.jsx): calendar math, slot generation, booking normalization,
the slot index, and the optimistic create/delete protocol of the session
controller.

Modelling conventions for the shallow embedding:
* JavaScript numbers holding integral minute counts are `Nat`; day counts
  and years are `Int` where subtraction matters.
* A JavaScript `Date` is viewed through the operations the code uses.
  The week logic (`startOfWeekMonday`, week navigation) only uses
  `getDay`, `setDate`/`getDate` day arithmetic and `setHours(0,0,0,0)`,
  so it is embedded linearly as a local day number plus a minute-of-day
  (`JSDateTime`); ECMA-262 defines `getDay` as `(Day(t) + 4) mod 7`
  with a non-negative modulus, since 1970-01-01 was a Thursday.
  `formatWeekRange` uses the calendar view `getDate`/`getMonth` with
  day-offset arithmetic, embedded as a proleptic Gregorian
  year/month/day record (`CalDate`).
* Arrays are `List`s; `Array.prototype.filter` is `List.filter` and
  `push` appends at the end.
-/

namespace ISKBooking

/-- `String.prototype.padStart(len, c)`: prepend copies of `c` until the
length is at least `len`. -/
def padStart (s : String) (len : Nat) (c : Char) : String :=
  String.mk (List.replicate (len - s.length) c) ++ s

/-- `pad2` from App.jsx: `String(n).padStart(2, "0")`. -/
def pad2 (n : Nat) : String :=
  padStart (toString n) 2 '0'

/-- `minutesToHHMM` from App.jsx. -/
def minutesToHHMM (mins : Nat) : String :=
  pad2 (mins / 60) ++ ":" ++ pad2 (mins % 60)

/-- `formatSlotLabel` from App.jsx: `"HH:MM-HH:MM"` for a 60-minute slot. -/
def formatSlotLabel (startMins : Nat) : String :=
  minutesToHHMM startMins ++ "-" ++ minutesToHHMM (startMins + 60)

/-- A slot as produced by `buildSlots`: `{ startMins, label }`. -/
structure Slot where
  startMins : Nat
  label : String
deriving DecidableEq, Repr

/-- The loop body of `buildSlots`: `for (let m = 8*60; m < 17*60; m += 60)`.
The loop is bounded by its guard `m < 17 * 60`; the `fuel` argument only
bounds the recursion depth so the definition is structural, and is chosen
larger than the trip count at the call site. -/
def buildSlotsLoop : Nat → Nat → List Slot
  | _, 0 => []
  | m, fuel + 1 =>
    if m < 17 * 60 then ⟨m, formatSlotLabel m⟩ :: buildSlotsLoop (m + 60) fuel
    else []

/-- `buildSlots` from App.jsx. -/
def buildSlots : List Slot :=
  buildSlotsLoop (8 * 60) 16

/-- A JS `Date` in the linear view: local day number since the epoch plus
minute-of-day.  1970-01-01 (day 0) was a Thursday. -/
structure JSDateTime where
  days : Int
  mins : Nat
deriving DecidableEq, Repr

/-- `Date.prototype.getDay`, per ECMA-262 `WeekDay(t) = (Day(t) + 4) mod 7`
(true modulus, result in `[0, 7)`): 0 = Sunday .. 6 = Saturday. -/
def getDay (d : JSDateTime) : Int :=
  (d.days + 4) % 7

/-- `addDays` from App.jsx: `d.setDate(d.getDate() + days)` keeps the
time-of-day and shifts the day number. -/
def addDays (d : JSDateTime) (n : Int) : JSDateTime :=
  { d with days := d.days + n }

/-- `startOfWeekMonday` from App.jsx: compute `diffToMonday = (getDay + 6) % 7`,
zero the time-of-day, and step back `diffToMonday` days. -/
def startOfWeekMonday (d : JSDateTime) : JSDateTime :=
  let day := getDay d
  let diffToMonday := (day + 6) % 7
  { days := d.days - diffToMonday, mins := 0 }

/-- The week-start operations the app performs after initialization:
previous week, next week (`setWeekStart(addDays(weekStart, ∓7))` in
`CalendarView`), and `resetToRoomSelection`, which re-derives the week
start from the current clock. -/
inductive WeekOp where
  | prevWeek
  | nextWeek
  | reset (now : JSDateTime)
deriving DecidableEq, Repr

/-- One step of the week-start state: how each `WeekOp` updates `weekStart`. -/
def stepWeekStart (w : JSDateTime) : WeekOp → JSDateTime
  | .prevWeek => addDays w (-7)
  | .nextWeek => addDays w 7
  | .reset now => startOfWeekMonday now

/-- The displayed week starts on a Monday (getDay = 1) at local midnight. -/
def IsMondayMidnight (w : JSDateTime) : Prop :=
  getDay w = 1 ∧ w.mins = 0

theorem startOfWeekMonday_isMondayMidnight (d : JSDateTime) :
    IsMondayMidnight (startOfWeekMonday d) := by
  unfold IsMondayMidnight startOfWeekMonday getDay
  constructor
  · simp only
    omega
  · rfl

theorem stepWeekStart_isMondayMidnight (w : JSDateTime) (op : WeekOp)
    (h : IsMondayMidnight w) : IsMondayMidnight (stepWeekStart w op) := by
  obtain ⟨h1, h2⟩ := h
  simp only [IsMondayMidnight, getDay] at h1
  cases op with
  | prevWeek =>
    simp only [IsMondayMidnight, stepWeekStart, addDays, getDay]
    exact ⟨by omega, h2⟩
  | nextWeek =>
    simp only [IsMondayMidnight, stepWeekStart, addDays, getDay]
    exact ⟨by omega, h2⟩
  | reset now => exact startOfWeekMonday_isMondayMidnight now

theorem foldl_stepWeekStart_isMondayMidnight (ops : List WeekOp) :
    ∀ w : JSDateTime, IsMondayMidnight w →
      IsMondayMidnight (ops.foldl stepWeekStart w) := by
  induction ops with
  | nil => intro w h; exact h
  | cons op rest ih =>
    intro w h
    exact ih (stepWeekStart w op) (stepWeekStart_isMondayMidnight w op h)

/-- C6: for every date `d`, `startOfWeekMonday d` falls on a Monday at local
midnight, `d` lies within `[startOfWeekMonday d, startOfWeekMonday d + 6]`
days, and a Sunday input rolls back 6 days to the preceding Monday. -/
theorem startOfWeekMonday_spec (d : JSDateTime) :
    getDay (startOfWeekMonday d) = 1 ∧
    (startOfWeekMonday d).mins = 0 ∧
    (startOfWeekMonday d).days ≤ d.days ∧
    d.days ≤ (startOfWeekMonday d).days + 6 ∧
    (getDay d = 0 → d.days - (startOfWeekMonday d).days = 6) := by
  unfold startOfWeekMonday getDay
  simp only
  refine ⟨by omega, trivial, by omega, by omega, fun h => by omega⟩

/-- Witness for C6 at the concrete Sunday 1970-01-04 (day number 3),
10:00 local time: the implication hypothesis `getDay d = 0` holds there
and the rollback is 6 days. -/
theorem startOfWeekMonday_spec_witness :
    getDay ⟨3, 600⟩ = 0 ∧
    (3 : Int) - (startOfWeekMonday ⟨3, 600⟩).days = 6 := by
  refine ⟨by decide, ?_⟩
  have h := (startOfWeekMonday_spec ⟨3, 600⟩).2.2.2.2 (by decide)
  exact h

/-- C7: `buildSlots` yields exactly 9 slots with startMinutes 480, 540, …,
960 and 24-hour zero-padded labels `"08:00-09:00"` … `"16:00-17:00"`,
strictly increasing and contiguous (each slot's end, start + 60, equals the
next slot's start). -/
theorem buildSlots_spec :
    buildSlots.length = 9 ∧
    buildSlots.map Slot.startMins =
      [480, 540, 600, 660, 720, 780, 840, 900, 960] ∧
    buildSlots.map Slot.label =
      ["08:00-09:00", "09:00-10:00", "10:00-11:00", "11:00-12:00",
       "12:00-13:00", "13:00-14:00", "14:00-15:00", "15:00-16:00",
       "16:00-17:00"] ∧
    List.Chain' (fun a b => a < b ∧ a + 60 = b)
      (buildSlots.map Slot.startMins) := by
  refine ⟨rfl, rfl, rfl, ?_⟩
  have h : buildSlots.map Slot.startMins =
      [480, 540, 600, 660, 720, 780, 840, 900, 960] := rfl
  rw [h]
  simp only [List.chain'_cons, List.chain'_singleton]
  norm_num

/-- C10: from an initial week start derived by `startOfWeekMonday`, any
sequence of week-navigation steps (±7 days) and resets leaves the displayed
week start on a Monday at local midnight. -/
theorem weekStart_always_monday (init : JSDateTime) (ops : List WeekOp) :
    IsMondayMidnight (ops.foldl stepWeekStart (startOfWeekMonday init)) :=
  foldl_stepWeekStart_isMondayMidnight ops (startOfWeekMonday init)
    (startOfWeekMonday_isMondayMidnight init)

/-- A JS `Date` in the calendar view used by `formatWeekRange`: proleptic
Gregorian year, `getMonth`-style month (0 = January .. 11 = December) and
`getDate`-style day of month (1-based). -/
structure CalDate where
  year : Int
  month : Nat
  day : Nat
deriving DecidableEq, Repr

/-- Gregorian leap-year rule, as applied by the JS `Date` day arithmetic. -/
def isLeapYear (y : Int) : Bool :=
  (y % 4 == 0 && y % 100 != 0) || y % 400 == 0

/-- Number of days in a `getMonth`-style month (0 = January). -/
def daysInMonth (y : Int) (m : Nat) : Nat :=
  match m with
  | 1 => if isLeapYear y then 29 else 28
  | 3 | 5 | 8 | 10 => 30
  | _ => 31

/-- Advance a calendar date by one day, rolling over months and years as
`Date.prototype.setDate` does. -/
def nextDay (d : CalDate) : CalDate :=
  if d.day < daysInMonth d.year d.month then { d with day := d.day + 1 }
  else if d.month < 11 then { d with month := d.month + 1, day := 1 }
  else { year := d.year + 1, month := 0, day := 1 }

/-- `addDays` from App.jsx in the calendar view, for the non-negative
offsets `formatWeekRange` uses (`addDays(start, 4)`). -/
def addDaysCal : CalDate → Nat → CalDate
  | d, 0 => d
  | d, n + 1 => addDaysCal (nextDay d) n

/-- The `DK_MONTH` abbreviation table from App.jsx. -/
def dkMonth : List String :=
  ["jan", "feb", "mar", "apr", "maj", "jun",
   "jul", "aug", "sep", "okt", "nov", "dec"]

/-- `DK_MONTH[m]`; out-of-range indexing would interpolate as
`"undefined"` in a JS template literal. -/
def monthName (m : Nat) : String :=
  dkMonth.getD m "undefined"

/-- `formatWeekRange` from App.jsx: label for the Monday–Friday span. -/
def formatWeekRange (monday : CalDate) : String :=
  let start := monday
  let e := addDaysCal start 4
  let sDay := start.day
  let sMonth := monthName start.month
  let eDay := e.day
  let eMonth := monthName e.month
  if start.month = e.month then
    toString sDay ++ ".–" ++ toString eDay ++ ". " ++ sMonth
  else
    toString sDay ++ ". " ++ sMonth ++ " – " ++ toString eDay ++ ". " ++ eMonth

/-- The spec's "D–D month" shape for a week that stays within one month,
built only from the span's endpoints. -/
def weekRangeSameMonthShape (m : CalDate) : String :=
  toString m.day ++ ".–" ++ toString (addDaysCal m 4).day ++ ". " ++
    monthName m.month

/-- The spec's "D month – D month" shape for a week that crosses a month
boundary, built only from the span's endpoints. -/
def weekRangeCrossMonthShape (m : CalDate) : String :=
  toString m.day ++ ". " ++ monthName m.month ++ " – " ++
    toString (addDaysCal m 4).day ++ ". " ++ monthName (addDaysCal m 4).month

/-- C8: the week-range label uses the "D–D month" shape exactly when the
5-day span Monday..Friday stays within one month and the
"D month – D month" shape when it crosses a month boundary; concretely,
Monday 2025-01-27 yields "27.–31. jan" and Monday 2025-04-28 yields
"28. apr – 2. maj". -/
theorem formatWeekRange_spec :
    (∀ m : CalDate,
      ((addDaysCal m 4).month = m.month →
        formatWeekRange m = weekRangeSameMonthShape m) ∧
      ((addDaysCal m 4).month ≠ m.month →
        formatWeekRange m = weekRangeCrossMonthShape m)) ∧
    formatWeekRange ⟨2025, 0, 27⟩ = "27.–31. jan" ∧
    formatWeekRange ⟨2025, 3, 28⟩ = "28. apr – 2. maj" := by
  refine ⟨fun m => ⟨fun h => ?_, fun h => ?_⟩, rfl, rfl⟩
  · unfold formatWeekRange weekRangeSameMonthShape
    simp only
    rw [if_pos h.symm]
  · unfold formatWeekRange weekRangeCrossMonthShape
    simp only
    rw [if_neg (fun hc => h hc.symm)]

/-- Witness for C8 at the concrete Monday 2025-01-27: the same-month
hypothesis holds there and the general shape theorem applies. -/
theorem formatWeekRange_spec_witness :
    formatWeekRange ⟨2025, 0, 27⟩ = weekRangeSameMonthShape ⟨2025, 0, 27⟩ :=
  (formatWeekRange_spec.1 ⟨2025, 0, 27⟩).1 (by decide)

/-- A normalized booking as held in local state:
`{ room, date, startMins, name }`. -/
structure Booking where
  room : String
  date : String
  startMins : Int
  name : String
deriving DecidableEq, Repr

/-- `bookingKey` from App.jsx: the composite key string
`room ++ "__" ++ date ++ "__" ++ startMins`. -/
def bookingKey (room date : String) (startMins : Int) : String :=
  room ++ "__" ++ date ++ "__" ++ toString startMins

/-- Drop leading whitespace characters from a character list. -/
def dropLeadingWs : List Char → List Char
  | [] => []
  | c :: cs => if c.isWhitespace then dropLeadingWs cs else c :: cs

/-- `String.prototype.trim`: strip whitespace from both ends of the
string.  (The ASCII whitespace characters relevant to this app coincide
with `Char.isWhitespace`.) -/
def jsTrim (s : String) : String :=
  String.mk (dropLeadingWs (dropLeadingWs s.data).reverse).reverse

/-- A JS value as far as `normalizeBookings`'s `typeof` checks observe it.
Numeric columns from the store are integers (`start_mins integer`). -/
inductive JSVal where
  | nullv
  | undef
  | bool (b : Bool)
  | num (n : Int)
  | str (s : String)
deriving DecidableEq, Repr

/-- `typeof v === "string"`. -/
def isStr : JSVal → Bool
  | .str _ => true
  | _ => false

/-- `typeof v === "number"`. -/
def isNum : JSVal → Bool
  | .num _ => true
  | _ => false

/-- The string payload of a `JSVal`; only applied to values that passed
`isStr`. -/
def jsString : JSVal → String
  | .str s => s
  | _ => ""

/-- The numeric payload of a `JSVal`; only applied to values that passed
`isNum`. -/
def jsNumber : JSVal → Int
  | .num n => n
  | _ => 0

/-- A raw record as fetched from the store and field-renamed by the fetch
effect (`start_mins` ↦ `startMins`), before shape validation.  A list
element that is itself `null`/`undefined` (failing the leading `b &&`
truthiness check) is modelled as `none`. -/
structure RawBooking where
  room : JSVal
  date : JSVal
  startMins : JSVal
  name : JSVal
deriving DecidableEq, Repr

/-- The filter predicate of `normalizeBookings`:
`b && typeof b.room === "string" && typeof b.date === "string" &&
typeof b.startMins === "number" && typeof b.name === "string"`. -/
def passesShapeCheck : Option RawBooking → Bool
  | none => false
  | some b => isStr b.room && isStr b.date && isNum b.startMins && isStr b.name

/-- The map step of `normalizeBookings`: project the four fields, trimming
the name. -/
def rawToBooking (b : RawBooking) : Booking :=
  { room := jsString b.room
    date := jsString b.date
    startMins := jsNumber b.startMins
    name := jsTrim (jsString b.name) }

/-- `normalizeBookings` from App.jsx: filter to well-typed records, then map
to the local booking shape with a trimmed name.  (The `Array.isArray` guard
is carried by the input type; the fetch path always passes an array.) -/
def normalizeBookings (raw : List (Option RawBooking)) : List Booking :=
  (((raw.filter passesShapeCheck).filterMap id).map rawToBooking)

/-- One `map.set(bookingKey(b.room, b.date, b.startMins), b)` step of the
index construction, viewed through `Map.get`: the written key now answers
`b`, every other key is unchanged. -/
def indexStep (m : String → Option Booking) (b : Booking) :
    String → Option Booking :=
  fun k => if k = bookingKey b.room b.date b.startMins then some b else m k

/-- `bookingsIndex` from App.jsx: the JS `Map` built by iterating
`map.set` over the collection, viewed through `Map.get` — later writes
win. -/
def bookingsIndex (bs : List Booking) : String → Option Booking :=
  bs.foldl indexStep (fun _ => none)

/-- `bookingsIndex.has(k)`. -/
def indexHas (bs : List Booking) (k : String) : Bool :=
  (bookingsIndex bs k).isSome

/-- The modal's mode: `"create" | "delete"`. -/
inductive ModalMode where
  | create
  | delete
deriving DecidableEq, Repr

/-- `activeCell`: `{ room, date, startMins }`. -/
structure Cell where
  room : String
  date : String
  startMins : Int
deriving DecidableEq, Repr

/-- The session's local state: the `useState`/`useRef` cells of `App`,
plus a `log` of `console.error` diagnostics. -/
structure SessionState where
  selectedRoom : Option String
  weekStart : JSDateTime
  bookings : List Booking
  loading : Bool
  modalOpen : Bool
  modalMode : ModalMode
  activeCell : Option Cell
  nameInput : String
  errorMsg : String
  bookingsSnapshot : List Booking
  log : List String
deriving DecidableEq, Repr

/-- `closeModal` from App.jsx. -/
def closeModal (s : SessionState) : SessionState :=
  { s with modalOpen := false, activeCell := none,
           nameInput := "", errorMsg := "" }

/-- The cell-match predicate used by both mutations:
`b.room === cell.room && b.date === cell.date &&
b.startMins === cell.startMins`. -/
def matchesCell (cell : Cell) (b : Booking) : Bool :=
  b.room == cell.room && b.date == cell.date && b.startMins == cell.startMins

/-- The optimistic step of `confirmCreate`: filter out any booking at the
cell, then `push` the new booking at the end. -/
def optimisticCreate (prev : List Booking) (cell : Cell) (name : String) :
    List Booking :=
  prev.filter (fun b => !(matchesCell cell b)) ++
    [⟨cell.room, cell.date, cell.startMins, name⟩]

/-- The rollback step of `confirmCreate`'s catch block: filter out any
booking at the cell. -/
def rollbackCreate (cur : List Booking) (cell : Cell) : List Booking :=
  cur.filter (fun b => !(matchesCell cell b))

/-- Outcome of the store's `insert`: success, a unique-key conflict
(Postgres 23505 — another client committed the same composite key first),
or any other transport/server failure. -/
inductive InsertResult where
  | ok
  | conflictError
  | otherError
deriving DecidableEq, Repr

/-- `confirmCreate` from App.jsx, with the `insert` outcome passed in:
validate the trimmed name, re-check the slot index, apply the optimistic
append, then on success close the modal and on any failure (the catch
block does not inspect the error kind) roll back and set the generic retry
message. -/
def confirmCreate (s : SessionState) (res : InsertResult) : SessionState :=
  match s.activeCell with
  | none => s
  | some cell =>
    let name := jsTrim s.nameInput
    if name = "" then { s with errorMsg := "Indtast venligst dit navn." }
    else if indexHas s.bookings
        (bookingKey cell.room cell.date cell.startMins) then
      { s with errorMsg := "Tidsrummet er allerede booket." }
    else
      let optimistic := optimisticCreate s.bookings cell name
      match res with
      | .ok => closeModal { s with bookings := optimistic }
      | _ =>
        { s with bookings := rollbackCreate optimistic cell,
                 errorMsg := "Kunne ikke gemme booking. Prøv igen." }

/-- `confirmDelete` from App.jsx, with the `delete` outcome passed in:
snapshot the collection into the ref, optimistically filter out the cell's
booking, then on success close the modal and on failure restore the
snapshot verbatim and set the retry message.  `interleave` stands for any
local changes to the booking collection that land between the optimistic
removal and the store call's resolution. -/
def confirmDelete (s : SessionState)
    (interleave : List Booking → List Booking) (deleteOk : Bool) :
    SessionState :=
  match s.activeCell with
  | none => s
  | some cell =>
    let snapshot := s.bookings
    let afterOptimistic := s.bookings.filter (fun b => !(matchesCell cell b))
    let current := interleave afterOptimistic
    if deleteOk then
      closeModal { s with bookings := current, bookingsSnapshot := snapshot }
    else
      { s with bookings := snapshot, bookingsSnapshot := snapshot,
               errorMsg := "Kunne ikke slette booking. Prøv igen." }

/-- Selecting a room: `setSelectedRoom(room)` plus the effect's immediate
`setLoading(true)` before `fetchBookings` runs.  The effect does not touch
`bookings` at this point. -/
def selectRoomStart (s : SessionState) (room : String) : SessionState :=
  { s with selectedRoom := some room, loading := true }

/-- The success path of `fetchBookings`: replace the collection with the
normalized fetch result and stop loading. -/
def fetchSuccess (s : SessionState) (raw : List (Option RawBooking)) :
    SessionState :=
  { s with bookings := normalizeBookings raw, loading := false }

/-- The failure path of `fetchBookings`: `console.error("Supabase fejl:",
error)` and `setLoading(false)`, then return — `bookings` is untouched. -/
def fetchFailure (s : SessionState) : SessionState :=
  { s with log := s.log ++ ["Supabase fejl:"], loading := false }

/-- `resetToRoomSelection` from App.jsx. -/
def resetToRoomSelection (s : SessionState) (now : JSDateTime) :
    SessionState :=
  { s with selectedRoom := none, weekStart := startOfWeekMonday now }

/-- Two bookings occupy the same (room, date, startMinutes) composite
key. -/
def SameSlot (a b : Booking) : Prop :=
  a.room = b.room ∧ a.date = b.date ∧ a.startMins = b.startMins

instance (a b : Booking) : Decidable (SameSlot a b) :=
  inferInstanceAs
    (Decidable (a.room = b.room ∧ a.date = b.date ∧ a.startMins = b.startMins))

/-- No two bookings in the collection share a composite key. -/
def KeyUnique (bs : List Booking) : Prop :=
  bs.Pairwise (fun a b => ¬SameSlot a b)

instance (bs : List Booking) : Decidable (KeyUnique bs) :=
  inferInstanceAs (Decidable (bs.Pairwise (fun a b => ¬SameSlot a b)))

/-- A confirmed, store-acknowledged mutation at the booking-collection
level: a confirm-create whose `insert` succeeded, or a confirm-delete
whose `delete` succeeded.  The create path carries `confirmCreate`'s
guards (trimmed-name validation and the slot-index re-check) and its
optimistic append; the delete path is `confirmDelete`'s filter. -/
inductive BookingOp where
  | create (cell : Cell) (name : String)
  | del (cell : Cell)
deriving DecidableEq, Repr

/-- The effect of one successful confirmation on the booking collection. -/
def applyConfirmedOp (bs : List Booking) : BookingOp → List Booking
  | .create cell name =>
    if jsTrim name = "" then bs
    else if indexHas bs (bookingKey cell.room cell.date cell.startMins) then bs
    else optimisticCreate bs cell (jsTrim name)
  | .del cell => bs.filter fun b => !(matchesCell cell b)

theorem indexStep_apply_none (m : String → Option Booking) (b : Booking)
    (k : String) :
    indexStep m b k = none ↔
      m k = none ∧ ¬(k = bookingKey b.room b.date b.startMins) := by
  unfold indexStep
  by_cases h : k = bookingKey b.room b.date b.startMins
  · simp [h]
  · simp [h]

theorem foldl_indexStep_none (bs : List Booking) :
    ∀ (m : String → Option Booking) (k : String),
      bs.foldl indexStep m k = none ↔
        m k = none ∧ ∀ b ∈ bs, ¬(k = bookingKey b.room b.date b.startMins) := by
  induction bs with
  | nil => intro m k; simp
  | cons b rest ih =>
    intro m k
    rw [List.foldl_cons, ih, indexStep_apply_none]
    simp only [List.mem_cons]
    constructor
    · rintro ⟨⟨h1, h2⟩, h3⟩
      refine ⟨h1, fun x hx => ?_⟩
      rcases hx with hx | hx
      · subst hx; exact h2
      · exact h3 x hx
    · rintro ⟨h1, h2⟩
      exact ⟨⟨h1, h2 b (Or.inl rfl)⟩, fun x hx => h2 x (Or.inr hx)⟩

theorem indexHas_false_iff (bs : List Booking) (k : String) :
    indexHas bs k = false ↔
      ∀ b ∈ bs, ¬(k = bookingKey b.room b.date b.startMins) := by
  unfold indexHas bookingsIndex
  rw [Bool.eq_false_iff, Ne, Option.isSome_iff_exists]
  constructor
  · intro h
    have hn : List.foldl indexStep (fun _ => none) bs k = none := by
      cases hc : List.foldl indexStep (fun _ => none) bs k with
      | none => rfl
      | some v => exact absurd ⟨v, hc⟩ h
    exact ((foldl_indexStep_none bs _ k).mp hn).2
  · intro h hex
    obtain ⟨v, hv⟩ := hex
    have hn := (foldl_indexStep_none bs (fun _ => none) k).mpr ⟨rfl, h⟩
    rw [hn] at hv
    cases hv

theorem matchesCell_true_iff (cell : Cell) (b : Booking) :
    matchesCell cell b = true ↔
      b.room = cell.room ∧ b.date = cell.date ∧ b.startMins = cell.startMins := by
  unfold matchesCell
  simp [Bool.and_eq_true, beq_iff_eq, and_assoc]

theorem no_match_of_indexHas_false (bs : List Booking) (cell : Cell)
    (h : indexHas bs (bookingKey cell.room cell.date cell.startMins) = false) :
    ∀ b ∈ bs, matchesCell cell b = false := by
  intro b hb
  have hk := (indexHas_false_iff bs _).mp h b hb
  cases hmc : matchesCell cell b with
  | false => rfl
  | true =>
    exfalso
    obtain ⟨h1, h2, h3⟩ := (matchesCell_true_iff cell b).mp hmc
    exact hk (by rw [h1, h2, h3])

theorem rollback_optimistic_eq (bs : List Booking) (cell : Cell)
    (name : String) (hfree : ∀ b ∈ bs, matchesCell cell b = false) :
    rollbackCreate (optimisticCreate bs cell name) cell = bs := by
  unfold rollbackCreate optimisticCreate
  rw [List.filter_append]
  have h1 : bs.filter (fun b => !(matchesCell cell b)) = bs :=
    List.filter_eq_self.mpr (fun b hb => by rw [hfree b hb]; rfl)
  have h2 : ([(⟨cell.room, cell.date, cell.startMins, name⟩ : Booking)]).filter
      (fun b => !(matchesCell cell b)) = [] := by
    simp [matchesCell]
  rw [h1, h1, h2, List.append_nil]

/-- Core lemma for the failed-insert path of `confirmCreate`: once the
validation and index guards pass, any non-`ok` insert outcome leaves the
booking collection at its pre-mutation value and sets the generic retry
message. -/
theorem confirmCreate_fail (s : SessionState) (cell : Cell)
    (res : InsertResult)
    (hcell : s.activeCell = some cell)
    (hname : ¬(jsTrim s.nameInput = ""))
    (hfree : indexHas s.bookings
      (bookingKey cell.room cell.date cell.startMins) = false)
    (hres : res ≠ .ok) :
    (confirmCreate s res).bookings = s.bookings ∧
    (confirmCreate s res).errorMsg = "Kunne ikke gemme booking. Prøv igen." := by
  unfold confirmCreate
  rw [hcell]
  simp only
  rw [if_neg hname, if_neg (by rw [hfree]; exact Bool.false_ne_true)]
  have hroll : rollbackCreate
      (optimisticCreate s.bookings cell (jsTrim s.nameInput)) cell = s.bookings :=
    rollback_optimistic_eq s.bookings cell (jsTrim s.nameInput)
      (no_match_of_indexHas_false s.bookings cell hfree)
  cases res with
  | ok => exact absurd rfl hres
  | conflictError => exact ⟨hroll, rfl⟩
  | otherError => exact ⟨hroll, rfl⟩

/-- One successful confirmation preserves key-uniqueness: the delete path
only filters, and the create path first removes every booking at the cell
before appending the one new booking there. -/
theorem applyConfirmedOp_keyUnique (bs : List Booking) (op : BookingOp)
    (h : KeyUnique bs) : KeyUnique (applyConfirmedOp bs op) := by
  cases op with
  | del cell => exact List.Pairwise.filter _ h
  | create cell name =>
    simp only [applyConfirmedOp]
    by_cases h1 : jsTrim name = ""
    · rw [if_pos h1]; exact h
    · rw [if_neg h1]
      by_cases h2 : indexHas bs
          (bookingKey cell.room cell.date cell.startMins) = true
      · rw [if_pos h2]; exact h
      · rw [if_neg h2]
        unfold optimisticCreate KeyUnique
        apply List.pairwise_append.mpr
        refine ⟨List.Pairwise.filter _ h, by simp, ?_⟩
        intro a ha b hb
        rw [List.mem_singleton] at hb
        subst hb
        obtain ⟨ha1, ha2⟩ := List.mem_filter.mp ha
        rintro ⟨hr, hd, hm⟩
        have : matchesCell cell a = true :=
          (matchesCell_true_iff cell a).mpr ⟨hr, hd, hm⟩
        rw [this] at ha2
        cases ha2

/-- A concrete target cell used for concrete evaluations. -/
def sampleCell : Cell :=
  ⟨"Lokale 308 (6 personer)", "2025-03-10", 600⟩

/-- A concrete booking at `sampleCell`. -/
def sampleBooking : Booking :=
  ⟨"Lokale 308 (6 personer)", "2025-03-10", 600, "Ida"⟩

/-- The session state at mount: no room, empty collection, modal closed. -/
def baseState : SessionState :=
  { selectedRoom := none
    weekStart := ⟨0, 0⟩
    bookings := []
    loading := true
    modalOpen := false
    modalMode := .create
    activeCell := none
    nameInput := ""
    errorMsg := ""
    bookingsSnapshot := []
    log := [] }

/-- A session state in the pending-create sub-state for `sampleCell`, with
a name typed into the modal and a free slot. -/
def pendingCreateState : SessionState :=
  { baseState with
    selectedRoom := some "Lokale 308 (6 personer)"
    modalOpen := true
    activeCell := some sampleCell
    nameInput := " Ida " }

/-- A session state in the pending-delete sub-state for `sampleCell`, with
`sampleBooking` present. -/
def pendingDeleteState : SessionState :=
  { baseState with
    selectedRoom := some "Lokale 308 (6 personer)"
    bookings := [sampleBooking]
    modalOpen := true
    modalMode := .delete
    activeCell := some sampleCell }

/-- A raw fetched record whose name is whitespace only: it passes every
`typeof` check of `normalizeBookings`. -/
def rawBlankName : RawBooking :=
  ⟨.str "Lokale 308 (6 personer)", .str "2025-03-10", .num 600, .str "   "⟩

/-- C1 counterexample: with the slot locally free, a conflicting insert is
handled by the same catch block as any other failure — the surfaced
message is the generic retry message, it is not the distinct
"already booked" message, and it is identical to the message surfaced for
a non-conflict failure. -/
theorem confirmCreate_conflict_generic_message :
    (confirmCreate pendingCreateState .conflictError).errorMsg =
      "Kunne ikke gemme booking. Prøv igen." ∧
    ¬((confirmCreate pendingCreateState .conflictError).errorMsg =
      "Tidsrummet er allerede booket.") ∧
    (confirmCreate pendingCreateState .conflictError).errorMsg =
      (confirmCreate pendingCreateState .otherError).errorMsg := by
  refine ⟨rfl, ?_, rfl⟩
  intro h
  rw [show (confirmCreate pendingCreateState .conflictError).errorMsg =
    "Kunne ikke gemme booking. Prøv igen." from rfl] at h
  exact absurd h (by decide)

/-- C1 (amended): when an insert from the confirm-create flow fails with a
unique-key conflict, the controller rolls back the optimistic booking but
surfaces the same generic retry message as any other insert failure; the
distinct "already booked" message is produced only by the local
pre-insert occupancy check, which makes no store call and applies no
optimistic mutation. -/
theorem confirmCreate_conflict_spec (s : SessionState) (cell : Cell)
    (hcell : s.activeCell = some cell)
    (hname : ¬(jsTrim s.nameInput = "")) :
    (indexHas s.bookings
        (bookingKey cell.room cell.date cell.startMins) = false →
      (confirmCreate s .conflictError).bookings = s.bookings ∧
      (confirmCreate s .conflictError).errorMsg =
        "Kunne ikke gemme booking. Prøv igen." ∧
      (confirmCreate s .conflictError).errorMsg =
        (confirmCreate s .otherError).errorMsg) ∧
    (indexHas s.bookings
        (bookingKey cell.room cell.date cell.startMins) = true →
      (confirmCreate s .conflictError).errorMsg =
        "Tidsrummet er allerede booket." ∧
      (confirmCreate s .conflictError).bookings = s.bookings) := by
  constructor
  · intro hfree
    obtain ⟨hb, hm⟩ := confirmCreate_fail s cell .conflictError hcell hname
      hfree (by decide)
    obtain ⟨_, hm'⟩ := confirmCreate_fail s cell .otherError hcell hname
      hfree (by decide)
    exact ⟨hb, hm, by rw [hm, hm']⟩
  · intro hocc
    unfold confirmCreate
    rw [hcell]
    simp only
    rw [if_neg hname, if_pos hocc]
    exact ⟨rfl, rfl⟩

/-- C1 witness: the amended theorem applied at the concrete pending-create
state with a free slot. -/
theorem confirmCreate_conflict_spec_witness :
    (confirmCreate pendingCreateState .conflictError).bookings =
      pendingCreateState.bookings ∧
    (confirmCreate pendingCreateState .conflictError).errorMsg =
      "Kunne ikke gemme booking. Prøv igen." := by
  have h := (confirmCreate_conflict_spec pendingCreateState sampleCell rfl
    (by decide)).1 rfl
  exact ⟨h.1, h.2.1⟩

/-- C2: if the create target's key is absent from the collection and the
insert fails for any reason, the post-rollback collection equals the
pre-mutation collection exactly, element for element. -/
theorem confirmCreate_rollback_exact (s : SessionState) (cell : Cell)
    (res : InsertResult)
    (hcell : s.activeCell = some cell)
    (hname : ¬(jsTrim s.nameInput = ""))
    (hfree : indexHas s.bookings
      (bookingKey cell.room cell.date cell.startMins) = false)
    (hres : res ≠ .ok) :
    (confirmCreate s res).bookings = s.bookings :=
  (confirmCreate_fail s cell res hcell hname hfree hres).1

/-- C2 witness: the rollback theorem applied at the concrete pending-create
state and a non-conflict failure. -/
theorem confirmCreate_rollback_exact_witness :
    (confirmCreate pendingCreateState .otherError).bookings =
      pendingCreateState.bookings :=
  confirmCreate_rollback_exact pendingCreateState sampleCell .otherError
    rfl (by decide) rfl (by decide)

/-- C3: if the delete call fails, the booking collection is restored to the
snapshot taken before the optimistic removal — whatever local changes were
interleaved while the call was in flight — and every booking of the
snapshot, the removed one included, reappears with its fields (name
included) unchanged. -/
theorem confirmDelete_rollback_snapshot (s : SessionState) (cell : Cell)
    (interleave : List Booking → List Booking)
    (hcell : s.activeCell = some cell) :
    (confirmDelete s interleave false).bookings = s.bookings ∧
    ∀ b ∈ s.bookings, b ∈ (confirmDelete s interleave false).bookings := by
  unfold confirmDelete
  rw [hcell]
  exact ⟨rfl, fun b hb => hb⟩

/-- C3 witness: the snapshot-restore theorem applied at the concrete
pending-delete state with an interleaving that wipes the whole local
collection while the delete call is in flight. -/
theorem confirmDelete_rollback_snapshot_witness :
    (confirmDelete pendingDeleteState (fun _ => []) false).bookings =
      [sampleBooking] ∧
    sampleBooking ∈
      (confirmDelete pendingDeleteState (fun _ => []) false).bookings := by
  have h := confirmDelete_rollback_snapshot pendingDeleteState sampleCell
    (fun _ => []) rfl
  exact ⟨h.1, h.2 sampleBooking (by decide)⟩

/-- C4 counterexample: selecting a room does not clear the prior
collection — after `selectRoomStart` the stale booking is still in local
state, and after a fetch failure it is still there, so the collection is
not empty. -/
theorem selectRoom_no_clear_cex :
    (selectRoomStart { baseState with bookings := [sampleBooking] }
      "Lokale 308 (6 personer)").bookings = [sampleBooking] ∧
    (fetchFailure (selectRoomStart
      { baseState with bookings := [sampleBooking] }
      "Lokale 308 (6 personer)")).bookings = [sampleBooking] ∧
    [sampleBooking] ≠ ([] : List Booking) := by
  refine ⟨rfl, rfl, ?_⟩
  intro h
  cases h

/-- C4 (amended): selecting a room marks the session loading without
clearing the prior collection; on fetch success the session holds exactly
the normalized fetch result, where a record survives iff it passes the
shape checks (malformed entries are silently dropped); on fetch failure
the collection is left unchanged (so it is empty only if it already was)
and the failure is logged. -/
theorem fetch_flow_spec :
    (∀ (s : SessionState) (room : String),
      (selectRoomStart s room).bookings = s.bookings ∧
      (selectRoomStart s room).loading = true) ∧
    (∀ (s : SessionState) (raw : List (Option RawBooking)),
      (fetchSuccess s raw).bookings = normalizeBookings raw) ∧
    (∀ (raw : List (Option RawBooking)) (b : Booking),
      b ∈ normalizeBookings raw ↔
        ∃ rb : RawBooking, some rb ∈ raw ∧
          passesShapeCheck (some rb) = true ∧ rawToBooking rb = b) ∧
    (∀ s : SessionState,
      (fetchFailure s).bookings = s.bookings ∧
      (fetchFailure s).log = s.log ++ ["Supabase fejl:"]) := by
  refine ⟨fun s room => ⟨rfl, rfl⟩, fun s raw => rfl, ?_, fun s => ⟨rfl, rfl⟩⟩
  intro raw b
  unfold normalizeBookings
  constructor
  · intro hb
    rw [List.mem_map] at hb
    obtain ⟨rb, hrb, hmap⟩ := hb
    rw [List.mem_filterMap] at hrb
    obtain ⟨ob, hob, hid⟩ := hrb
    rw [List.mem_filter] at hob
    obtain ⟨hmem, hpass⟩ := hob
    simp only [id_eq] at hid
    subst hid
    exact ⟨rb, hmem, hpass, hmap⟩
  · rintro ⟨rb, hmem, hpass, hmap⟩
    rw [List.mem_map]
    refine ⟨rb, ?_, hmap⟩
    rw [List.mem_filterMap]
    exact ⟨some rb, List.mem_filter.mpr ⟨hmem, hpass⟩, rfl⟩

/-- C4 witness: the fetch-flow theorem applied at the initial session
state. -/
theorem fetch_flow_spec_witness :
    (fetchFailure baseState).bookings = baseState.bookings ∧
    (fetchFailure baseState).log = baseState.log ++ ["Supabase fejl:"] :=
  fetch_flow_spec.2.2.2 baseState

/-- C5: starting from a key-unique collection, any sequence of successful
confirm-create and confirm-delete operations leaves the collection
key-unique: no two bookings share the (room, date, startMinutes) composite
key. -/
theorem keyUnique_preserved (init : List Booking) (ops : List BookingOp)
    (h : KeyUnique init) : KeyUnique (ops.foldl applyConfirmedOp init) := by
  induction ops generalizing init with
  | nil => exact h
  | cons op rest ih => exact ih _ (applyConfirmedOp_keyUnique init op h)

/-- C5 witness: the uniqueness theorem applied to a concrete operation
sequence (two creates at the same key — the second is rejected by the
index re-check — then a delete and a re-create). -/
theorem keyUnique_preserved_witness :
    KeyUnique
      (([.create sampleCell " Ida ", .create sampleCell "Bob",
         .del sampleCell, .create sampleCell "Eva"] :
        List BookingOp).foldl applyConfirmedOp []) :=
  keyUnique_preserved [] _ (by decide)

/-- C9 counterexample: a fetched record whose name is all whitespace
passes every shape check of `normalizeBookings` and is admitted with the
empty name, so not every admitted booking has a non-empty trimmed name. -/
theorem normalize_admits_empty_name :
    normalizeBookings [some rawBlankName] =
      [⟨"Lokale 308 (6 personer)", "2025-03-10", 600, ""⟩] ∧
    ¬(∀ b ∈ normalizeBookings [some rawBlankName], b.name ≠ "") := by
  refine ⟨by decide, fun hall => ?_⟩
  exact hall ⟨"Lokale 308 (6 personer)", "2025-03-10", 600, ""⟩ (by decide) rfl

/-- C9 (amended): every booking admitted by fetch validation carries a
whitespace-trimmed name, which may be empty (`normalizeBookings` trims but
does not reject empty names); every booking added by a successful
confirm-create carries the trimmed, non-empty modal input as its name. -/
theorem booking_name_trimmed_spec :
    (∀ (raw : List (Option RawBooking)), ∀ b ∈ normalizeBookings raw,
      ∃ s0 : String, b.name = jsTrim s0) ∧
    (∀ (s : SessionState) (cell : Cell), s.activeCell = some cell →
      ¬(jsTrim s.nameInput = "") →
      ∀ b ∈ (confirmCreate s .ok).bookings,
        b ∈ s.bookings ∨ (b.name = jsTrim s.nameInput ∧ b.name ≠ "")) := by
  constructor
  · intro raw b hb
    unfold normalizeBookings at hb
    rw [List.mem_map] at hb
    obtain ⟨rb, _, hmap⟩ := hb
    subst hmap
    exact ⟨jsString rb.name, rfl⟩
  · intro s cell hcell hname b hb
    unfold confirmCreate at hb
    rw [hcell] at hb
    simp only at hb
    rw [if_neg hname] at hb
    by_cases hfree : indexHas s.bookings
        (bookingKey cell.room cell.date cell.startMins) = true
    · rw [if_pos hfree] at hb
      exact Or.inl hb
    · rw [if_neg hfree] at hb
      have hb' : b ∈ optimisticCreate s.bookings cell (jsTrim s.nameInput) := hb
      unfold optimisticCreate at hb'
      rcases List.mem_append.mp hb' with h | h
      · exact Or.inl (List.mem_filter.mp h).1
      · rw [List.mem_singleton] at h
        subst h
        exact Or.inr ⟨rfl, hname⟩

/-- C9 witness: the amended theorem applied at a concrete fetched blank
name and at the concrete pending-create state with a successful insert. -/
theorem booking_name_trimmed_spec_witness :
    (∃ s0 : String,
      (Booking.mk "Lokale 308 (6 personer)" "2025-03-10" 600 "").name =
        jsTrim s0) ∧
    ((⟨"Lokale 308 (6 personer)", "2025-03-10", 600, "Ida"⟩ : Booking) ∈
        pendingCreateState.bookings ∨
      ((⟨"Lokale 308 (6 personer)", "2025-03-10", 600, "Ida"⟩ :
          Booking).name = jsTrim pendingCreateState.nameInput ∧
        (⟨"Lokale 308 (6 personer)", "2025-03-10", 600, "Ida"⟩ :
          Booking).name ≠ "")) := by
  constructor
  · exact booking_name_trimmed_spec.1 [some rawBlankName] _ (by decide)
  · exact booking_name_trimmed_spec.2 pendingCreateState sampleCell rfl
      (by decide) _ (by decide)

end ISKBooking
